import Mathlib

/-!
# ClearVM: shallow embedding of the bytecode virtual machine

This file embeds the ClearVM interpreter (the current version of `vm.c`,
whose text is the second document of `src/ClearVM/chunk.c`, together with
`vm.h` = `src/unnamed/part_000`, `bytecode.h` = `src/unnamed/part_014` and
the second document of `src/ClearVM/value.h`) into Lean 4, and settles the
frozen claims C1..C10 against it.

Modelling conventions:
* Machine pointers become indices: the instruction pointer is a byte offset
  into the module buffer, the frame/stack pointers are slot indices into the
  512-slot value stack, and heap references are indices into a list of heap
  objects (allocation appends at the end, so an index is a stable identity).
* The module buffer is a total function `Nat → Nat`; bytes at offsets past
  the buffer length model the unspecified memory the C program would read on
  an out-of-bounds access.  Every byte access is truncated with `% 256`,
  matching a `uint8_t` load.
* The value stack is a total function `Nat → Nat` paired with the cursor
  `sp`; popping only moves the cursor, exactly as in C, so a slot's contents
  survive a pop until overwritten (this is load-bearing for upvalue closing).
* C `double` payloads are modelled by their exact rational values; IEEE-754
  bit patterns are decoded by `f64FromBits`.  Arithmetic on them is modelled
  exactly (the claims under verification never depend on rounding), and the
  constant `NUM_PRECISION = 0.0000001` is the exact rational 1/10^7.
* C `size_t` subtraction, whose wrap-around matters in `loadConstants`, is
  modelled by `sizeSub` (wrap at 2^64).
* Undefined behaviour that the interpreter can actually reach (reading a
  union member of the wrong variant, an out-of-range struct drop count) is
  modelled by the explicit outcome `VMErr.UndefinedBehavior`.
* Implementations missing from `src/` (the current `value.c`): the value
  constructors, `valuesEqual`, `makeString` interning, `makeStruct`,
  `makeUpvalue`, `closeUpvalue` and `stringifyValue` are modelled from the
  specification; each carries a doc comment saying so.
-/

/-! ## The embedding: definitions -/

/-- Outcome of a handler, refining the C `RESULT_ERR` with the error
taxonomy of the specification (§7). `UndefinedBehavior` marks executions
where the C program reads memory or unions outside their defined use;
`OutOfFuel` is the artificial exhaustion marker of the fuelled
dispatch loop and corresponds to no C behaviour. -/
inductive VMErr where
  | StackUnderflow
  | StackOverflow
  | PeekUnderRange
  | TruncatedHeader
  | UnknownConstantTag
  | TruncatedInstruction
  | UnknownOpcode
  | ConstantIndexOutOfRange
  | UndefinedGlobal
  | LocalOutOfRange
  | FieldOutOfRange
  | JumpOutOfRange
  | InvalidCast
  | NonStringConcat
  | NonStringPrint
  | NonStructField
  | NonIPLoad
  | NonFPLoad
  | NonUpvalueDeref
  | NonFunctionCall
  | UndefinedBehavior
  | OutOfFuel
  deriving DecidableEq, Repr

/-- The tagged payload of a `Value` (the C union together with the
`ValueType` tag, from `value.h`): Bool, Nil, Obj (heap handle), Int
(32-bit signed), Num (f64 modelled as its exact rational value),
IP (code byte offset), FP (stack slot index). -/
inductive ValueData where
  | VBool (b : Bool)
  | VNil
  | VObj (h : Nat)
  | VInt (n : Int)
  | VNum (x : ℚ)
  | VIP (p : Nat)
  | VFP (p : Nat)
  deriving DecidableEq, Repr

/-- Numeric code of a value tag, following the declaration order of the
C enum `ValueType` in `value.h`: BOOL=0, NIL=1, OBJ=2, INT=3, NUM=4,
IP=5, FP=6. -/
def valTypeTag : ValueData → Nat
  | .VBool _ => 0
  | .VNil => 1
  | .VObj _ => 2
  | .VInt _ => 3
  | .VNum _ => 4
  | .VIP _ => 5
  | .VFP _ => 6

/-- A stack value: the tagged payload plus the `references` field, the
chain of open upvalues currently referencing the slot that holds this
value.  The C original stores the chain intrusively (head pointer in the
value, `next` pointers inside the upvalue objects); we flatten it to the
list of upvalue handles in chain order. -/
structure Value where
  data : ValueData
  references : List Nat
  deriving DecidableEq, Repr

/-- The precision used for Num comparisons, `NUM_PRECISION` in `value.h`
(0.0000001, modelled exactly). -/
def NUM_PRECISION : ℚ := 1 / 10000000

/-- Modelled from the spec: the value constructors of the current
`value.c` are absent from `src/`; per the data model (§3) each returns a
fresh value of the given tag with an empty upvalue-reference chain. -/
def makeNil : Value := ⟨.VNil, []⟩

/-- Modelled from the spec: fresh Bool value (missing `value.c`). -/
def makeBool (b : Bool) : Value := ⟨.VBool b, []⟩

/-- Modelled from the spec: fresh Int value (missing `value.c`). -/
def makeInt (n : Int) : Value := ⟨.VInt n, []⟩

/-- Modelled from the spec: fresh Num value (missing `value.c`). -/
def makeNum (x : ℚ) : Value := ⟨.VNum x, []⟩

/-- Modelled from the spec: fresh IP value (missing `value.c`). -/
def makeIP (p : Nat) : Value := ⟨.VIP p, []⟩

/-- Modelled from the spec: fresh FP value (missing `value.c`). -/
def makeFP (p : Nat) : Value := ⟨.VFP p, []⟩

/-- State of an upvalue object: OPEN (referencing a live stack slot) or
CLOSED (owning a copied value), from `value.h` (`UpvalueObject`). -/
inductive UpvState where
  | openSlot (i : Nat)
  | closed (v : Value)
  deriving DecidableEq, Repr

/-- A heap object (`ObjectValue` with its payload in `value.h`): an
interned string (byte contents), a struct (field array), or an upvalue. -/
inductive HeapObj where
  | HString (data : List Nat)
  | HStruct (fields : List Value)
  | HUpvalue (st : UpvState)
  deriving DecidableEq, Repr

/-- Numeric code of an object tag, following the C enum `ObjectType` in
`value.h`: STRING=0, STRUCT=1, UPVALUE=2. -/
def objTypeTag : HeapObj → Nat
  | .HString _ => 0
  | .HStruct _ => 1
  | .HUpvalue _ => 2

/-- 32-bit signed integer from four little-endian bytes (the
`*(int32_t *)` load in `loadConstants`). -/
def decodeI32 (b0 b1 b2 b3 : Nat) : Int :=
  let n : Nat := b0 % 256 + 256 * (b1 % 256) + 65536 * (b2 % 256) +
    16777216 * (b3 % 256)
  if n < 2147483648 then (n : Int) else (n : Int) - 4294967296

/-- Exact rational value of an IEEE-754 binary64 bit pattern (the
`*(double *)` load in `loadConstants`).  Infinities and NaNs
(exponent 2047) have no rational value and are mapped to 0; no claim
under verification involves them. -/
def f64FromBits (bits : Nat) : ℚ :=
  let sign : ℚ := if bits / 9223372036854775808 % 2 = 1 then -1 else 1
  let expo : Nat := bits / 4503599627370496 % 2048
  let mant : Nat := bits % 4503599627370496
  if expo = 2047 then 0
  else if expo = 0 then sign * (mant : ℚ) * 2 / 2 ^ 1075
  else sign * ((4503599627370496 + mant : Nat) : ℚ) * 2 ^ expo / 2 ^ 1075

/-- C `size_t` subtraction `a - b` (wrap-around at 2^64): this models the
underflowing bounds checks of `loadConstants`. -/
def sizeSub (a b : Nat) : Nat :=
  if b ≤ a then a - b else 18446744073709551616 + a - b

/-- A `uint8_t` load from the module buffer. -/
def byteAt (mem : Nat → Nat) (i : Nat) : Nat := mem i % 256

/-- Write one slot of the value stack. -/
def writeSlot (st : Nat → Value) (i : Nat) (v : Value) : Nat → Value :=
  fun j => if j = i then v else st j

/-- Write consecutive slots starting at `i` (the `memcpy` onto the stack
performed by `PUSHN`). -/
def writeList (st : Nat → Value) (i : Nat) : List Value → Nat → Value
  | [] => st
  | v :: vs => writeList (writeSlot st i v) (i + 1) vs

/-- The full VM state (`struct sVM` in `vm.h`, with the module buffer and
the observable output stream added so that `executeCode` is a pure
function).  `start`, `endIdx` and `ip` are byte offsets into `mem`;
`sp` and `fp` are slot indices into `stack`. -/
structure VMState where
  mem : Nat → Nat
  length : Nat
  start : Nat
  endIdx : Nat
  ip : Nat
  fp : Nat
  sp : Nat
  stack : Nat → Value
  globalsSet : Nat → Bool
  globalsData : Nat → Value
  returnStore : Value
  constants : List Value
  heap : List HeapObj
  output : List (List Nat)
  clock : ℚ

/-- `STACK_MAX` from `vm.h`. -/
def STACK_MAX : Nat := 512

/-- `GLOBAL_MAX` from `vm.h`. -/
def GLOBAL_MAX : Nat := 256

/-- The `PUSH` macro: fails with StackOverflow if `sp - stack == STACK_MAX`,
else stores at `sp` and advances. -/
def push (s : VMState) (v : Value) : Except VMErr VMState :=
  if s.sp = STACK_MAX then .error .StackOverflow
  else .ok { s with stack := writeSlot s.stack s.sp v, sp := s.sp + 1 }

/-- The `POP` macro: fails with StackUnderflow if `sp - stack == 0`, else
retreats and returns the slot contents (the slot itself is not erased). -/
def pop (s : VMState) : Except VMErr (Value × VMState) :=
  if s.sp = 0 then .error .StackUnderflow
  else .ok (s.stack (s.sp - 1), { s with sp := s.sp - 1 })

/-- The `POPN` macro: fails with StackUnderflow when `sp - stack <= n - 1`
(signed arithmetic, hence exactly when fewer than `n` values are on the
stack), else retreats by `n` and returns the `n` slots bottom-first (the
`memcpy` into the destination array). -/
def popn (s : VMState) (n : Nat) : Except VMErr (List Value × VMState) :=
  if s.sp < n then .error .StackUnderflow
  else .ok ((List.range n).map (fun j => s.stack (s.sp - n + j)),
    { s with sp := s.sp - n })

/-- The `PUSHN` macro: fails with StackOverflow when
`sp - stack >= STACK_MAX + n - 1` (the source's check, kept verbatim
including its off-by-one: it does NOT guarantee `sp + n ≤ STACK_MAX`),
else copies the values onto the stack and advances by `n`. -/
def pushn (s : VMState) (vs : List Value) : Except VMErr VMState :=
  if (STACK_MAX : Int) + (vs.length : Int) - 1 ≤ (s.sp : Int) then
    .error .StackOverflow
  else .ok { s with stack := writeList s.stack s.sp vs, sp := s.sp + vs.length }

/-- The `PEEK` macro: fails with PeekUnderRange when
`sp - stack <= offset`, else yields the index of slot `sp - offset - 1`. -/
def peekIdx (s : VMState) (off : Nat) : Except VMErr Nat :=
  if s.sp ≤ off then .error .PeekUnderRange
  else .ok (s.sp - off - 1)

/-- `readU8`: fails with TruncatedInstruction when `end - ip < 1`, else
reads the byte at `ip` and advances `ip`. -/
def readU8 (s : VMState) : Except VMErr (Nat × VMState) :=
  if s.endIdx ≤ s.ip then .error .TruncatedInstruction
  else .ok (byteAt s.mem s.ip, { s with ip := s.ip + 1 })

/-- Handle of the interned string with the given byte contents, when one
exists in the heap (the lookup in the intern store). -/
def findString : List HeapObj → List Nat → Option Nat
  | [], _ => none
  | o :: rest, bytes =>
    if o = .HString bytes then some 0
    else (findString rest bytes).map (· + 1)

/-- Modelled from the spec: `makeString` of the current `value.c` is
absent from `src/`.  Per §4.6 (and the earlier `obj.c` interning code),
string creation first consults the intern store: a byte-equal string
already on the heap is returned as-is; otherwise a fresh string object is
allocated.  Returns the (possibly extended) heap and the value. -/
def makeString (heap : List HeapObj) (bytes : List Nat) :
    List HeapObj × Value :=
  match findString heap bytes with
  | some h => (heap, ⟨.VObj h, []⟩)
  | none => (heap ++ [.HString bytes], ⟨.VObj heap.length, []⟩)

/-- Modelled from the spec: `closeUpvalue` of the current `value.c` is
absent from `src/`.  Per §3/§4.7, closing an OPEN upvalue copies the
referenced stack slot's current value into the upvalue's own storage and
rewires its pointer; a CLOSED upvalue is unaffected (OPEN → CLOSED happens
at most once). -/
def closeUpvalue (stack : Nat → Value) (heap : List HeapObj) (h : Nat) :
    List HeapObj :=
  match heap.get? h with
  | some (.HUpvalue (.openSlot i)) => heap.set h (.HUpvalue (.closed (stack i)))
  | _ => heap

/-- The loop of `op_pop`: close every upvalue in the popped value's
reference chain (each against the current, unmodified stack). -/
def closeAll (stack : Nat → Value) (heap : List HeapObj)
    (refs : List Nat) : List HeapObj :=
  refs.foldl (closeUpvalue stack) heap

/-- Modelled from the spec: `valuesEqual` of the current `value.c` is
absent from `src/` (the copies in `src/ClearVM/value.c` target earlier
value layouts).  Per §4.7: values of different tags are unequal; Bool,
Nil and Int compare by value; Num compares by absolute difference below
`NUM_PRECISION`; Obj compares by identity (handle equality — byte-equal
strings share a handle through interning); the repository's own SPEC.md
adds that non-string pointer types (IP, FP) also compare by identity. -/
def valuesEqual (a b : Value) : Bool :=
  match a.data, b.data with
  | .VBool x, .VBool y => x = y
  | .VNil, .VNil => true
  | .VObj h1, .VObj h2 => h1 = h2
  | .VInt x, .VInt y => x = y
  | .VNum x, .VNum y => |x - y| < NUM_PRECISION
  | .VIP p, .VIP q => p = q
  | .VFP p, .VFP q => p = q
  | _, _ => false

/-- Decimal digit bytes (ASCII) of a natural number. -/
def natToBytes (n : Nat) : List Nat :=
  (Nat.toDigits 10 n).map Char.toNat

/-- Decimal byte string of an integer (ASCII, leading 45 = '-' when
negative). -/
def intToBytes (n : Int) : List Nat :=
  if n < 0 then 45 :: natToBytes n.natAbs else natToBytes n.natAbs

/-- Modelled from the spec: the textual form of a Num uses exactly 7
fractional digits (§4.7); we render round-to-nearest of `|x| * 10^7`,
zero-padded to 7 digits, with a leading '-' for negative values. -/
def numToBytes (x : ℚ) : List Nat :=
  let scaled : Nat := (Int.floor (|x| * 10000000 + 1 / 2)).toNat
  let whole := natToBytes (scaled / 10000000)
  let fracDigits := natToBytes (scaled % 10000000)
  let frac := List.replicate (7 - fracDigits.length) 48 ++ fracDigits
  let mag := whole ++ (46 :: frac)
  if x < 0 then 45 :: mag else mag

/-- Modelled from the spec: `stringifyValue` of the current `value.c` is
absent from `src/`.  Per §4.7 and the repository SPEC.md (`OP_STR`):
Bool renders as "true"/"false", Nil as "nil", Int in decimal, Num with 7
fractional digits; pointer types (Obj, IP, FP) fail with InvalidCast.
The produced string is interned like any other. -/
def stringifyValue (heap : List HeapObj) (v : Value) :
    Except VMErr (List HeapObj × Value) :=
  match v.data with
  | .VBool b => .ok (makeString heap (if b then [116, 114, 117, 101]
      else [102, 97, 108, 115, 101]))
  | .VNil => .ok (makeString heap [110, 105, 108])
  | .VInt n => .ok (makeString heap (intToBytes n))
  | .VNum x => .ok (makeString heap (numToBytes x))
  | _ => .error .InvalidCast

/-- Wrap an integer to the range of `int32_t` (two's-complement), for the
Int arithmetic handlers. -/
def wrap32 (z : Int) : Int := (z + 2147483648) % 4294967296 - 2147483648

/-- `errorInstruction`: the sentinel handler for unimplemented opcodes
(every opcode below `OP_COUNT` is in fact populated by `initVM`). -/
def errorInstruction (_ : VMState) : Except VMErr VMState :=
  .error .UnknownOpcode

/-- `op_pushConst` (OP_PUSH_CONST). -/
def op_pushConst (s : VMState) : Except VMErr VMState := do
  let (index, s) ← readU8 s
  if h : index < s.constants.length then
    push s (s.constants.get ⟨index, h⟩)
  else .error .ConstantIndexOutOfRange

/-- `op_pushTrue` (OP_PUSH_TRUE). -/
def op_pushTrue (s : VMState) : Except VMErr VMState :=
  push s (makeBool true)

/-- `op_pushFalse` (OP_PUSH_FALSE). -/
def op_pushFalse (s : VMState) : Except VMErr VMState :=
  push s (makeBool false)

/-- `op_pushNil` (OP_PUSH_NIL). -/
def op_pushNil (s : VMState) : Except VMErr VMState :=
  push s makeNil

/-- `setGlobal` from `vm.c`: fails above `GLOBAL_MAX`, else writes the
slot and marks it present. -/
def setGlobal (s : VMState) (index : Nat) (v : Value) :
    Except VMErr VMState :=
  if GLOBAL_MAX ≤ index then .error .UndefinedGlobal
  else .ok { s with
    globalsData := fun j => if j = index then v else s.globalsData j,
    globalsSet := fun j => if j = index then true else s.globalsSet j }

/-- `getGlobal` from `vm.c`: fails above `GLOBAL_MAX` or when the slot
was never set. -/
def getGlobal (s : VMState) (index : Nat) : Except VMErr Value :=
  if GLOBAL_MAX ≤ index then .error .UndefinedGlobal
  else if s.globalsSet index then .ok (s.globalsData index)
  else .error .UndefinedGlobal

/-- `op_setGlobal` (OP_SET_GLOBAL). -/
def op_setGlobal (s : VMState) : Except VMErr VMState := do
  let (index, s) ← readU8 s
  let (value, s) ← pop s
  setGlobal s index value

/-- `op_pushGlobal` (OP_PUSH_GLOBAL). -/
def op_pushGlobal (s : VMState) : Except VMErr VMState := do
  let (index, s) ← readU8 s
  let global ← getGlobal s index
  push s global

/-- `op_setLocal` (OP_SET_LOCAL): pops a value, checks the index against
the current frame (`index >= sp - fp`, after the pop), then stores the
value in `fp[index]` — first overwriting the stored value's `references`
with the destination slot's existing chain, so captures stay attached to
the slot. -/
def op_setLocal (s : VMState) : Except VMErr VMState := do
  let (index, s) ← readU8 s
  let (value, s) ← pop s
  if s.sp - s.fp ≤ index then .error .LocalOutOfRange
  else
    let value := { value with references := (s.stack (s.fp + index)).references }
    .ok { s with stack := writeSlot s.stack (s.fp + index) value }

/-- `op_pushLocal` (OP_PUSH_LOCAL). -/
def op_pushLocal (s : VMState) : Except VMErr VMState := do
  let (index, s) ← readU8 s
  if s.sp - s.fp ≤ index then .error .LocalOutOfRange
  else push s (s.stack (s.fp + index))

/-- Truncation of a rational toward zero (the C cast `(int)` applied to a
double whose value is in range; out-of-range doubles are undefined in C
and modelled as `UndefinedBehavior` by the caller). -/
def ratTrunc (x : ℚ) : Int :=
  if 0 ≤ x then Int.floor x else -(Int.floor (-x))

/-- `op_int` (OP_INT): casts the top slot in place; Bool → 0/1,
Nil → 0, Int unchanged, Num truncated toward zero (undefined when out of
`int32` range), pointer types fail with InvalidCast. -/
def op_int (s : VMState) : Except VMErr VMState := do
  let i ← peekIdx s 0
  match (s.stack i).data with
  | .VBool b => .ok { s with stack := writeSlot s.stack i (makeInt (if b then 1 else 0)) }
  | .VInt _ => .ok s
  | .VNil => .ok { s with stack := writeSlot s.stack i (makeInt 0) }
  | .VNum x =>
    if ratTrunc x < -2147483648 ∨ 2147483647 < ratTrunc x then
      .error .UndefinedBehavior
    else .ok { s with stack := writeSlot s.stack i (makeInt (ratTrunc x)) }
  | _ => .error .InvalidCast

/-- `op_bool` (OP_BOOL): casts the top slot in place; Bool unchanged,
Int → (n ≠ 0), Nil → false, Num `x` → (`x < NUM_PRECISION` when
`x > 0.0`, else `-x < NUM_PRECISION`), pointer types fail with
InvalidCast. -/
def op_bool (s : VMState) : Except VMErr VMState := do
  let i ← peekIdx s 0
  match (s.stack i).data with
  | .VBool _ => .ok s
  | .VInt n => .ok { s with stack := writeSlot s.stack i (makeBool (n ≠ 0)) }
  | .VNil => .ok { s with stack := writeSlot s.stack i (makeBool false) }
  | .VNum x =>
    if 0 < x then
      .ok { s with stack := writeSlot s.stack i (makeBool (x < NUM_PRECISION)) }
    else
      .ok { s with stack := writeSlot s.stack i (makeBool (-x < NUM_PRECISION)) }
  | _ => .error .InvalidCast

/-- `op_num` (OP_NUM): casts the top slot in place; Bool → 0.0/1.0,
Int upcast, Nil → 0.0, Num unchanged, pointer types fail with
InvalidCast. -/
def op_num (s : VMState) : Except VMErr VMState := do
  let i ← peekIdx s 0
  match (s.stack i).data with
  | .VBool b => .ok { s with stack := writeSlot s.stack i (makeNum (if b then 1 else 0)) }
  | .VInt n => .ok { s with stack := writeSlot s.stack i (makeNum (n : ℚ)) }
  | .VNil => .ok { s with stack := writeSlot s.stack i (makeNum 0) }
  | .VNum _ => .ok s
  | _ => .error .InvalidCast

/-- `op_str` (OP_STR): replaces the top slot with its string form via
`stringifyValue`. -/
def op_str (s : VMState) : Except VMErr VMState := do
  let i ← peekIdx s 0
  let (heap, v) ← stringifyValue s.heap (s.stack i)
  .ok { s with heap := heap, stack := writeSlot s.stack i v }

/-- `op_clock` (OP_CLOCK): pushes the elapsed-seconds reading (an input
of the model, held in the `clock` field). -/
def op_clock (s : VMState) : Except VMErr VMState :=
  push s (makeNum s.clock)

/-- `op_print` (OP_PRINT): pops a value, which must be a String object,
and appends its bytes to the output stream. -/
def op_print (s : VMState) : Except VMErr VMState := do
  let (str, s) ← pop s
  match str.data with
  | .VObj h =>
    match s.heap.get? h with
    | some (.HString bytes) => .ok { s with output := s.output ++ [bytes] }
    | some _ => .error .NonStringPrint
    | none => .error .UndefinedBehavior
  | _ => .error .NonStringPrint

/-- `op_pop` (OP_POP): pops the top value and closes every upvalue in its
reference chain (each copies the still-present slot contents it points
at). -/
def op_pop (s : VMState) : Except VMErr VMState := do
  let (value, s) ← pop s
  .ok { s with heap := closeAll s.stack s.heap value.references }

/-- `op_squash` (OP_SQUASH): pops the top value and overwrites the new
top slot with it. -/
def op_squash (s : VMState) : Except VMErr VMState := do
  let (value, s) ← pop s
  let i ← peekIdx s 0
  .ok { s with stack := writeSlot s.stack i value }

/-- Reading the `s32` union member: defined only for Int values; the
arithmetic handlers skip tag checks, so for other tags the C result is
unspecified (modelled as `UndefinedBehavior`). -/
def asInt : ValueData → Except VMErr Int
  | .VInt n => .ok n
  | _ => .error .UndefinedBehavior

/-- Reading the `f64` union member (see `asInt`). -/
def asNum : ValueData → Except VMErr ℚ
  | .VNum x => .ok x
  | _ => .error .UndefinedBehavior

/-- Reading the `b` union member (see `asInt`). -/
def asBool : ValueData → Except VMErr Bool
  | .VBool b => .ok b
  | _ => .error .UndefinedBehavior

/-- The `UNARY_OP` macro shape: peek the top slot, replace it with
`f` of it. -/
def unaryOp (f : Value → Except VMErr Value) (s : VMState) :
    Except VMErr VMState := do
  let i ← peekIdx s 0
  let v ← f (s.stack i)
  .ok { s with stack := writeSlot s.stack i v }

/-- The `BINARY_OP` macro shape: pop `b`, peek `a`, replace the `a` slot
with `f a b`. -/
def binaryOp (f : Value → Value → Except VMErr Value) (s : VMState) :
    Except VMErr VMState := do
  let (second, s) ← pop s
  let i ← peekIdx s 0
  let v ← f (s.stack i) second
  .ok { s with stack := writeSlot s.stack i v }

/-- `op_intNeg` (OP_INT_NEG). -/
def op_intNeg : VMState → Except VMErr VMState :=
  unaryOp fun a => do .ok (makeInt (wrap32 (-(← asInt a.data))))

/-- `op_numNeg` (OP_NUM_NEG). -/
def op_numNeg : VMState → Except VMErr VMState :=
  unaryOp fun a => do .ok (makeNum (-(← asNum a.data)))

/-- `op_intAdd` (OP_INT_ADD). -/
def op_intAdd : VMState → Except VMErr VMState :=
  binaryOp fun a b => do .ok (makeInt (wrap32 ((← asInt a.data) + (← asInt b.data))))

/-- `op_numAdd` (OP_NUM_ADD). -/
def op_numAdd : VMState → Except VMErr VMState :=
  binaryOp fun a b => do .ok (makeNum ((← asNum a.data) + (← asNum b.data)))

/-- `op_intSub` (OP_INT_SUB). -/
def op_intSub : VMState → Except VMErr VMState :=
  binaryOp fun a b => do .ok (makeInt (wrap32 ((← asInt a.data) - (← asInt b.data))))

/-- `op_numSub` (OP_NUM_SUB). -/
def op_numSub : VMState → Except VMErr VMState :=
  binaryOp fun a b => do .ok (makeNum ((← asNum a.data) - (← asNum b.data)))

/-- `op_intMul` (OP_INT_MUL). -/
def op_intMul : VMState → Except VMErr VMState :=
  binaryOp fun a b => do .ok (makeInt (wrap32 ((← asInt a.data) * (← asInt b.data))))

/-- `op_numMul` (OP_NUM_MUL). -/
def op_numMul : VMState → Except VMErr VMState :=
  binaryOp fun a b => do .ok (makeNum ((← asNum a.data) * (← asNum b.data)))

/-- C `int32_t` division truncates toward zero; division by zero is
undefined. -/
def intDivC (a b : Int) : Except VMErr Int :=
  if b = 0 then .error .UndefinedBehavior else .ok (Int.tdiv a b)

/-- `op_intDiv` (OP_INT_DIV). -/
def op_intDiv : VMState → Except VMErr VMState :=
  binaryOp fun a b => do .ok (makeInt (wrap32 (← intDivC (← asInt a.data) (← asInt b.data))))

/-- `op_numDiv` (OP_NUM_DIV); division by zero (IEEE ±inf) leaves the
rational model, hence `UndefinedBehavior`. -/
def op_numDiv : VMState → Except VMErr VMState :=
  binaryOp fun a b => do
    let x ← asNum a.data
    let y ← asNum b.data
    if y = 0 then .error .UndefinedBehavior else .ok (makeNum (x / y))

/-- `op_strCat` (OP_STR_CAT): pops `b`, peeks `a`; both must be String
objects (else NonStringConcat); replaces the `a` slot with the interned
concatenation (`concatStrings` concatenates the bytes and re-interns via
`makeString`). -/
def op_strCat (s : VMState) : Except VMErr VMState := do
  let (b, s) ← pop s
  let i ← peekIdx s 0
  match b.data, (s.stack i).data with
  | .VObj hb, .VObj ha =>
    match s.heap.get? hb, s.heap.get? ha with
    | some (.HString bbytes), some (.HString abytes) =>
      let (heap, v) := makeString s.heap (abytes ++ bbytes)
      .ok { s with heap := heap, stack := writeSlot s.stack i v }
    | _, _ => .error .NonStringConcat
  | _, _ => .error .NonStringConcat

/-- `op_not` (OP_NOT). -/
def op_not : VMState → Except VMErr VMState :=
  unaryOp fun a => do .ok (makeBool (!(← asBool a.data)))

/-- `op_intLess` (OP_INT_LESS). -/
def op_intLess : VMState → Except VMErr VMState :=
  binaryOp fun a b => do .ok (makeBool (decide ((← asInt a.data) < (← asInt b.data))))

/-- `op_numLess` (OP_NUM_LESS): `a < b - NUM_PRECISION`. -/
def op_numLess : VMState → Except VMErr VMState :=
  binaryOp fun a b => do
    .ok (makeBool (decide ((← asNum a.data) < (← asNum b.data) - NUM_PRECISION)))

/-- `op_intGreater` (OP_INT_GREATER). -/
def op_intGreater : VMState → Except VMErr VMState :=
  binaryOp fun a b => do .ok (makeBool (decide ((← asInt b.data) < (← asInt a.data))))

/-- `op_numGreater` (OP_NUM_GREATER): `a > b + NUM_PRECISION`. -/
def op_numGreater : VMState → Except VMErr VMState :=
  binaryOp fun a b => do
    .ok (makeBool (decide ((← asNum b.data) + NUM_PRECISION < (← asNum a.data))))

/-- `op_equal` (OP_EQUAL): pops `b`, peeks `a`, replaces the `a` slot
with `makeBool (valuesEqual a b)`. -/
def op_equal : VMState → Except VMErr VMState :=
  binaryOp fun a b => .ok (makeBool (valuesEqual a b))

/-- `op_jump` (OP_JUMP): `ip += offset`, then fails with JumpOutOfRange
when `ip > end`. -/
def op_jump (s : VMState) : Except VMErr VMState := do
  let (offset, s) ← readU8 s
  let s := { s with ip := s.ip + offset }
  if s.endIdx < s.ip then .error .JumpOutOfRange else .ok s

/-- `op_jumpIfFalse` (OP_JUMP_IF_FALSE): pops a value and jumps when its
`b` union member is false (unspecified for non-Bool values). -/
def op_jumpIfFalse (s : VMState) : Except VMErr VMState := do
  let (offset, s) ← readU8 s
  let (cond, s) ← pop s
  let b ← asBool cond.data
  if !b then
    let s := { s with ip := s.ip + offset }
    if s.endIdx < s.ip then .error .JumpOutOfRange else .ok s
  else .ok s

/-- `op_loop` (OP_LOOP): `ip -= offset` (pointer arithmetic, so compared
as integers), then fails with JumpOutOfRange when `ip < start`. -/
def op_loop (s : VMState) : Except VMErr VMState := do
  let (offset, s) ← readU8 s
  if (s.ip : Int) - (offset : Int) < (s.start : Int) then .error .JumpOutOfRange
  else .ok { s with ip := s.ip - offset }

/-- `op_function` (OP_FUNCTION): pushes the current `ip` as an IP value,
then advances `ip` by the offset operand — with no bounds check. -/
def op_function (s : VMState) : Except VMErr VMState := do
  let (offset, s) ← readU8 s
  let ip := s.ip
  let s ← push s (makeIP ip)
  .ok { s with ip := s.ip + offset }

/-- `op_call` (OP_CALL): pops the target, which must be an IP value (else
NonFunctionCall); pops `paramCount` arguments into a buffer; pushes
`IP(return ip)` then `FP(caller fp)`; sets `fp := sp`; jumps to the
target; pushes the buffered arguments back. -/
def op_call (s : VMState) : Except VMErr VMState := do
  let (paramCount, s) ← readU8 s
  let (function, s) ← pop s
  match function.data with
  | .VIP target => do
    let (params, s) ← popn s paramCount
    let s ← push s (makeIP s.ip)
    let s ← push s (makeFP s.fp)
    let s := { s with fp := s.sp, ip := target }
    pushn s params
  | _ => .error .NonFunctionCall

/-- `op_loadIp` (OP_LOAD_IP): pops an IP value into `ip` (else
NonIPLoad). -/
def op_loadIp (s : VMState) : Except VMErr VMState := do
  let (ipValue, s) ← pop s
  match ipValue.data with
  | .VIP p => .ok { s with ip := p }
  | _ => .error .NonIPLoad

/-- `op_loadFp` (OP_LOAD_FP): pops an FP value into `fp` (else
NonFPLoad). -/
def op_loadFp (s : VMState) : Except VMErr VMState := do
  let (fpValue, s) ← pop s
  match fpValue.data with
  | .VFP p => .ok { s with fp := p }
  | _ => .error .NonFPLoad

/-- `op_setReturn` (OP_SET_RETURN). -/
def op_setReturn (s : VMState) : Except VMErr VMState := do
  let (returnValue, s) ← pop s
  .ok { s with returnStore := returnValue }

/-- `op_pushReturn` (OP_PUSH_RETURN). -/
def op_pushReturn (s : VMState) : Except VMErr VMState :=
  push s s.returnStore

/-- Modelled from the spec: `makeStruct` of the current `value.c` is
absent from `src/`.  It allocates a struct object with a field array of
the given size (contents filled in by the caller) and returns the heap
with the new object appended plus its handle. -/
def makeStruct (heap : List HeapObj) (fieldCount : Nat) :
    List HeapObj × Nat :=
  (heap ++ [.HStruct (List.replicate fieldCount makeNil)], heap.length)

/-- `op_struct` (OP_STRUCT): allocates a struct of `fieldCount` fields,
pops that many values into its field array (bottom-first, i.e. push
order), and pushes the struct value. -/
def op_struct (s : VMState) : Except VMErr VMState := do
  let (fieldCount, s) ← readU8 s
  let (heap, h) := makeStruct s.heap fieldCount
  let s := { s with heap := heap }
  let (fields, s) ← popn s fieldCount
  let s := { s with heap := s.heap.set h (.HStruct fields) }
  push s ⟨.VObj h, []⟩

/-- `op_destruct` (OP_DESTRUCT): pops a value, which must be a Struct
object; pushes its fields from `dropCount` on.  A drop count above the
field count makes the C `fieldCount - dropCount` wrap to a huge `size_t`
(`memcpy` far out of bounds): modelled as `UndefinedBehavior`. -/
def op_destruct (s : VMState) : Except VMErr VMState := do
  let (dropCount, s) ← readU8 s
  let (structValue, s) ← pop s
  match structValue.data with
  | .VObj h =>
    match s.heap.get? h with
    | some (.HStruct fields) =>
      if fields.length < dropCount then .error .UndefinedBehavior
      else pushn s (fields.drop dropCount)
    | some _ => .error .NonStructField
    | none => .error .UndefinedBehavior
  | _ => .error .NonStructField

/-- `op_getField` (OP_GET_FIELD): pops a Struct value and pushes its
field at the operand index (FieldOutOfRange when too large). -/
def op_getField (s : VMState) : Except VMErr VMState := do
  let (index, s) ← readU8 s
  let (structValue, s) ← pop s
  match structValue.data with
  | .VObj h =>
    match s.heap.get? h with
    | some (.HStruct fields) =>
      if hf : index < fields.length then push s (fields.get ⟨index, hf⟩)
      else .error .FieldOutOfRange
    | some _ => .error .NonStructField
    | none => .error .UndefinedBehavior
  | _ => .error .NonStructField

/-- `op_extractField` (OP_EXTRACT_FIELD): peeks the Struct value at the
stack offset operand (without popping) and pushes its field at the index
operand. -/
def op_extractField (s : VMState) : Except VMErr VMState := do
  let (offset, s) ← readU8 s
  let (index, s) ← readU8 s
  let i ← peekIdx s offset
  match (s.stack i).data with
  | .VObj h =>
    match s.heap.get? h with
    | some (.HStruct fields) =>
      if hf : index < fields.length then push s (fields.get ⟨index, hf⟩)
      else .error .FieldOutOfRange
    | some _ => .error .NonStructField
    | none => .error .UndefinedBehavior
  | _ => .error .NonStructField

/-- `op_setField` (OP_SET_FIELD): pops a value and writes it into the
indexed field of the Struct value now on top (which stays on top). -/
def op_setField (s : VMState) : Except VMErr VMState := do
  let (index, s) ← readU8 s
  let (field, s) ← pop s
  let i ← peekIdx s 0
  match (s.stack i).data with
  | .VObj h =>
    match s.heap.get? h with
    | some (.HStruct fields) =>
      if index < fields.length then
        .ok { s with heap := s.heap.set h (.HStruct (fields.set index field)) }
      else .error .FieldOutOfRange
    | some _ => .error .NonStructField
    | none => .error .UndefinedBehavior
  | _ => .error .NonStructField

/-- `op_insertField` (OP_INSERT_FIELD): pops a value and writes it into
the indexed field of the Struct value peeked at the offset operand. -/
def op_insertField (s : VMState) : Except VMErr VMState := do
  let (offset, s) ← readU8 s
  let (index, s) ← readU8 s
  let (fieldValue, s) ← pop s
  let i ← peekIdx s offset
  match (s.stack i).data with
  | .VObj h =>
    match s.heap.get? h with
    | some (.HStruct fields) =>
      if index < fields.length then
        .ok { s with heap := s.heap.set h (.HStruct (fields.set index fieldValue)) }
      else .error .FieldOutOfRange
    | some _ => .error .NonStructField
    | none => .error .UndefinedBehavior
  | _ => .error .NonStructField

/-- Modelled from the spec: `makeUpvalue` of the current `value.c` is
absent from `src/` (the nearest surviving version is in
`src/unnamed/part_012`).  Per §4.6 it allocates an OPEN upvalue
referencing the given slot and links it at the head of that slot's
reference chain; the resulting Obj value itself has an empty chain.
Returns the new heap, new stack, and the upvalue's value. -/
def makeUpvalue (heap : List HeapObj) (stack : Nat → Value) (slot : Nat) :
    List HeapObj × (Nat → Value) × Value :=
  let h := heap.length
  let old := stack slot
  (heap ++ [.HUpvalue (.openSlot slot)],
   writeSlot stack slot { old with references := h :: old.references },
   ⟨.VObj h, []⟩)

/-- `op_refLocal` (OP_REF_LOCAL): checks the local index against the
frame, allocates an open upvalue on `fp[index]` and pushes it. -/
def op_refLocal (s : VMState) : Except VMErr VMState := do
  let (index, s) ← readU8 s
  if s.sp - s.fp ≤ index then .error .LocalOutOfRange
  else
    let (heap, stack, result) := makeUpvalue s.heap s.stack (s.fp + index)
    push { s with heap := heap, stack := stack } result

/-- Reading through an upvalue (`*upvalueObj->ptr`): an OPEN upvalue
yields the current contents of its stack slot, a CLOSED one its own
stored value. -/
def derefUpvalue (stack : Nat → Value) : UpvState → Value
  | .openSlot i => stack i
  | .closed v => v

/-- `op_deref` (OP_DEREF): the top value must be an Upvalue object (else
NonUpvalueDeref); replaces it in place with the referenced value. -/
def op_deref (s : VMState) : Except VMErr VMState := do
  let i ← peekIdx s 0
  match (s.stack i).data with
  | .VObj h =>
    match s.heap.get? h with
    | some (.HUpvalue st) =>
      .ok { s with stack := writeSlot s.stack i (derefUpvalue s.stack st) }
    | some _ => .error .NonUpvalueDeref
    | none => .error .UndefinedBehavior
  | _ => .error .NonUpvalueDeref

/-- `op_setRef` (OP_SET_REF): pops an upvalue then a value and writes the
value through the upvalue (into the referenced stack slot when OPEN, into
the upvalue's own storage when CLOSED). -/
def op_setRef (s : VMState) : Except VMErr VMState := do
  let (upvalue, s) ← pop s
  let (value, s) ← pop s
  match upvalue.data with
  | .VObj h =>
    match s.heap.get? h with
    | some (.HUpvalue (.openSlot i)) =>
      .ok { s with stack := writeSlot s.stack i value }
    | some (.HUpvalue (.closed _)) =>
      .ok { s with heap := s.heap.set h (.HUpvalue (.closed value)) }
    | some _ => .error .NonUpvalueDeref
    | none => .error .UndefinedBehavior
  | _ => .error .NonUpvalueDeref

/-- `op_isValType` (OP_IS_VAL_TYPE): peeks the top value (not consumed)
and pushes whether its value tag equals the byte operand. -/
def op_isValType (s : VMState) : Except VMErr VMState := do
  let (val_type, s) ← readU8 s
  let i ← peekIdx s 0
  push s (makeBool (valTypeTag (s.stack i).data = val_type))

/-- `op_isObjType` (OP_IS_OBJ_TYPE): peeks the top value (not consumed)
and pushes whether its object tag equals the byte operand.  The C source
reads `value->as.obj->type` without checking that the value is an Obj:
for any other tag this dereferences a reinterpreted payload, which is
undefined behaviour, modelled as `UndefinedBehavior`. -/
def op_isObjType (s : VMState) : Except VMErr VMState := do
  let (obj_type, s) ← readU8 s
  let i ← peekIdx s 0
  match (s.stack i).data with
  | .VObj h =>
    match s.heap.get? h with
    | some o => push s (makeBool (objTypeTag o = obj_type))
    | none => .error .UndefinedBehavior
  | _ => .error .UndefinedBehavior

/-- `OP_COUNT` from `bytecode.h`. -/
def OP_COUNT : Nat := 53

/-- The handler table populated by `initVM`, indexed by opcode exactly as
in `bytecode.h` (every opcode 0..52 is assigned; the sentinel
`errorInstruction` is unreachable below `OP_COUNT`). -/
def instructions : Nat → VMState → Except VMErr VMState
  | 0 => op_pushConst
  | 1 => op_pushTrue
  | 2 => op_pushFalse
  | 3 => op_pushNil
  | 4 => op_setGlobal
  | 5 => op_pushGlobal
  | 6 => op_setLocal
  | 7 => op_pushLocal
  | 8 => op_int
  | 9 => op_bool
  | 10 => op_num
  | 11 => op_str
  | 12 => op_clock
  | 13 => op_print
  | 14 => op_pop
  | 15 => op_squash
  | 16 => op_intNeg
  | 17 => op_numNeg
  | 18 => op_intAdd
  | 19 => op_numAdd
  | 20 => op_intSub
  | 21 => op_numSub
  | 22 => op_intMul
  | 23 => op_numMul
  | 24 => op_intDiv
  | 25 => op_numDiv
  | 26 => op_strCat
  | 27 => op_not
  | 28 => op_intLess
  | 29 => op_numLess
  | 30 => op_intGreater
  | 31 => op_numGreater
  | 32 => op_equal
  | 33 => op_jump
  | 34 => op_jumpIfFalse
  | 35 => op_loop
  | 36 => op_function
  | 37 => op_call
  | 38 => op_loadIp
  | 39 => op_loadFp
  | 40 => op_setReturn
  | 41 => op_pushReturn
  | 42 => op_struct
  | 43 => op_destruct
  | 44 => op_getField
  | 45 => op_extractField
  | 46 => op_setField
  | 47 => op_insertField
  | 48 => op_refLocal
  | 49 => op_deref
  | 50 => op_setRef
  | 51 => op_isValType
  | 52 => op_isObjType
  | _ => errorInstruction

/-- `runVM`: the dispatch loop.  While `end - ip > 0` (signed pointer
difference, so the loop also exits normally when `ip` has been pushed past
`end`), fetch one byte, reject opcodes at or above `OP_COUNT` with
UnknownOpcode, and run the handler, aborting on its error.  The `fuel`
argument only bounds the number of iterations of the total model. -/
def runVM : Nat → VMState → Except VMErr VMState
  | 0, _ => .error .OutOfFuel
  | fuel + 1, s =>
    if s.endIdx ≤ s.ip then .ok s
    else
      let opcode := byteAt s.mem s.ip
      let s := { s with ip := s.ip + 1 }
      if OP_COUNT ≤ opcode then .error .UnknownOpcode
      else
        match instructions opcode s with
        | .error e => .error e
        | .ok s2 => runVM fuel s2

/-- The record loop of `loadConstants` (`vm.c`): reads `count` constant
records starting at byte offset `index`.  All bounds checks are the
source's own, with `size_t` wrap-around (`sizeSub`); reads the checks
fail to guard land beyond the buffer (offsets ≥ `length` of `mem`).
Returns the constants read, the heap after string interning, and the
offset after the last record. -/
def loadConstLoop (mem : Nat → Nat) (length : Nat) :
    Nat → Nat → List Value → List HeapObj →
    Except VMErr (List Value × List HeapObj × Nat)
  | 0, index, consts, heap => .ok (consts, heap, index)
  | count + 1, index, consts, heap =>
    let tag := byteAt mem index
    if tag = 0 then
      if sizeSub length 4 ≤ index then .error .TruncatedHeader
      else
        let v := decodeI32 (mem (index + 1)) (mem (index + 2))
          (mem (index + 3)) (mem (index + 4))
        loadConstLoop mem length count (index + 5) (consts ++ [makeInt v]) heap
    else if tag = 1 then
      if sizeSub length 8 ≤ index then .error .TruncatedHeader
      else
        let bits := byteAt mem (index + 1) + 256 * byteAt mem (index + 2) +
          65536 * byteAt mem (index + 3) + 16777216 * byteAt mem (index + 4) +
          4294967296 * byteAt mem (index + 5) +
          1099511627776 * byteAt mem (index + 6) +
          281474976710656 * byteAt mem (index + 7) +
          72057594037927936 * byteAt mem (index + 8)
        loadConstLoop mem length count (index + 9)
          (consts ++ [makeNum (f64FromBits bits)]) heap
    else if tag = 2 then
      if sizeSub length 1 < index + 1 then .error .TruncatedHeader
      else
        let strLength := byteAt mem (index + 1)
        if sizeSub length strLength < index + 2 then .error .TruncatedHeader
        else
          let bytes := (List.range strLength).map (fun j => byteAt mem (index + 2 + j))
          let (heap, v) := makeString heap bytes
          loadConstLoop mem length count (index + 2 + strLength)
            (consts ++ [v]) heap
    else .error .UnknownConstantTag

/-- `loadConstants` (`vm.c`): reads the constant count from byte 0 of the
buffer — without checking that the buffer is non-empty — then reads that
many records starting at offset 1. -/
def loadConstants (mem : Nat → Nat) (length : Nat) :
    Except VMErr (List Value × List HeapObj × Nat) :=
  loadConstLoop mem length (byteAt mem 0) 1 [] []

/-- The VM state produced by `initVM` followed by the assignments in
`executeCode`: empty stack, `fp = sp = 0`, no globals set, nil return
store, `start = 0`, `end = length`, `ip` at the first code byte. -/
def initialState (mem : Nat → Nat) (length : Nat) (constants : List Value)
    (heap : List HeapObj) (index : Nat) : VMState where
  mem := mem
  length := length
  start := 0
  endIdx := length
  ip := index
  fp := 0
  sp := 0
  stack := fun _ => makeNil
  globalsSet := fun _ => false
  globalsData := fun _ => makeNil
  returnStore := makeNil
  constants := constants
  heap := heap
  output := []
  clock := 0

/-- `executeCode`: load the constant pool (aborting on its error), set
`start`/`end`/`ip`, and enter the dispatch loop. -/
def executeCode (fuel : Nat) (mem : Nat → Nat) (length : Nat) :
    Except VMErr VMState := do
  let (constants, heap, index) ← loadConstants mem length
  runVM fuel (initialState mem length constants heap index)

/-- Observable instruction-pointer data of an execution result: `some
(ip, end)` on success, `none` on error. -/
def ipEndOf : Except VMErr VMState → Option (Nat × Nat)
  | .ok s => some (s.ip, s.endIdx)
  | .error _ => none

/-- Observable constant pool of an execution result. -/
def constantsOf : Except VMErr VMState → Option (List Value)
  | .ok s => some s.constants
  | .error _ => none

/-- Observable stack cursor of a handler result. -/
def spOf : Except VMErr VMState → Option Nat
  | .ok s => some s.sp
  | .error _ => none

/-! ## Basic lemmas about the stack primitives -/

def c10s : VMState :=
  { mem := fun _ => 0, length := 0, start := 0, endIdx := 0, ip := 0,
    fp := 0, sp := 1, stack := fun _ => makeNum 0,
    globalsSet := fun _ => false, globalsData := fun _ => makeNil,
    returnStore := makeNil, constants := [], heap := [], output := [],
    clock := 0 }

/-- Stack slot of a handler result. -/
def slotOf (r : Except VMErr VMState) (i : Nat) : Option Value :=
  match r with
  | .ok s => some (s.stack i)
  | .error _ => none

def c8s : VMState :=
  { mem := fun _ => 0, length := 1, start := 0, endIdx := 1, ip := 0,
    fp := 0, sp := 2,
    stack := fun i => if i = 0 then ⟨.VInt 1, [5]⟩ else ⟨.VInt 9, []⟩,
    globalsSet := fun _ => false, globalsData := fun _ => makeNil,
    returnStore := makeNil, constants := [], heap := [], output := [],
    clock := 0 }

def c9s : VMState :=
  { mem := fun _ => 0, length := 1, start := 0, endIdx := 1, ip := 0,
    fp := 0, sp := 1, stack := fun _ => ⟨.VObj 0, []⟩,
    globalsSet := fun _ => false, globalsData := fun _ => makeNil,
    returnStore := makeNil, constants := [],
    heap := [.HString [104, 105]], output := [], clock := 0 }

def c9bad : VMState :=
  { mem := fun _ => 0, length := 1, start := 0, endIdx := 1, ip := 0,
    fp := 0, sp := 1, stack := fun _ => ⟨.VInt 5, []⟩,
    globalsSet := fun _ => false, globalsData := fun _ => makeNil,
    returnStore := makeNil, constants := [], heap := [], output := [],
    clock := 0 }

/-- Instruction pointer of a handler result. -/
def ipOf : Except VMErr VMState → Option Nat
  | .ok s => some s.ip
  | .error _ => none

def c1s : VMState :=
  { mem := fun _ => 1, length := 1, start := 0, endIdx := 1, ip := 0,
    fp := 0, sp := 3,
    stack := fun i => if i = 1 then ⟨.VInt 42, []⟩
      else if i = 2 then ⟨.VIP 7, []⟩ else makeNil,
    globalsSet := fun _ => false, globalsData := fun _ => makeNil,
    returnStore := makeNil, constants := [], heap := [], output := [],
    clock := 0 }

/-- Heap object of a handler result. -/
def heapAtOf (r : Except VMErr VMState) (h : Nat) : Option HeapObj :=
  match r with
  | .ok s => s.heap.get? h
  | .error _ => none

def c2s : VMState :=
  { mem := fun _ => 0, length := 0, start := 0, endIdx := 0, ip := 0,
    fp := 0, sp := 1, stack := fun _ => ⟨.VInt 7, [0]⟩,
    globalsSet := fun _ => false, globalsData := fun _ => makeNil,
    returnStore := makeNil, constants := [],
    heap := [.HUpvalue (.openSlot 0)], output := [], clock := 0 }

def c2t : VMState :=
  { mem := fun _ => 0, length := 0, start := 0, endIdx := 0, ip := 0,
    fp := 0, sp := 1, stack := fun _ => ⟨.VObj 0, []⟩,
    globalsSet := fun _ => false, globalsData := fun _ => makeNil,
    returnStore := makeNil, constants := [],
    heap := [.HUpvalue (.closed ⟨.VInt 7, [0]⟩)], output := [], clock := 0 }

/-- The string-interning invariant of the heap (§3): strings in the
intern store are unique by byte content. -/
def StringsInterned (heap : List HeapObj) : Prop :=
  ∀ i j bi bj, heap.get? i = some (.HString bi) →
    heap.get? j = some (.HString bj) → bi = bj → i = j

def c6s : VMState :=
  { mem := fun _ => 0, length := 0, start := 0, endIdx := 0, ip := 0,
    fp := 0, sp := 2, stack := fun _ => ⟨.VObj 0, []⟩,
    globalsSet := fun _ => false, globalsData := fun _ => makeNil,
    returnStore := makeNil, constants := [],
    heap := [.HString [104, 105]], output := [], clock := 0 }

def c7bad : VMState :=
  { mem := fun _ => 0, length := 2, start := 0, endIdx := 2, ip := 0,
    fp := 0, sp := 511, stack := fun _ => makeNil,
    globalsSet := fun _ => false, globalsData := fun _ => makeNil,
    returnStore := makeNil, constants := [], heap := [], output := [],
    clock := 0 }

def c7s : VMState :=
  { mem := fun i => if i = 0 then 2 else 0, length := 2, start := 0,
    endIdx := 2, ip := 0, fp := 0, sp := 2,
    stack := fun i => if i = 0 then ⟨.VInt 1, []⟩ else ⟨.VInt 2, []⟩,
    globalsSet := fun _ => false, globalsData := fun _ => makeNil,
    returnStore := makeNil, constants := [], heap := [], output := [],
    clock := 0 }

def memC3 : Nat → Nat := fun i => [0, 36, 10].getD i 0

def c4s : VMState :=
  { mem := fun _ => 0, length := 1, start := 0, endIdx := 1, ip := 0,
    fp := 0, sp := 512,
    stack := fun i => if i = 511 then ⟨.VObj 0, []⟩ else makeNil,
    globalsSet := fun _ => false, globalsData := fun _ => makeNil,
    returnStore := makeNil, constants := [],
    heap := [.HStruct [makeNil, makeNil]], output := [], clock := 0 }

def memC5 : Nat → Nat := fun i => [1, 0].getD i 0

def memC5junk : Nat → Nat := fun i => [1, 0].getD i 7

/-! ## Supporting lemmas and the claim theorems -/

theorem writeSlot_same (st : Nat → Value) (i : Nat) (v : Value) :
    writeSlot st i v i = v := by
  simp [writeSlot]

theorem writeSlot_other (st : Nat → Value) (i j : Nat) (v : Value)
    (h : j ≠ i) : writeSlot st i v j = st j := by
  simp [writeSlot, h]

theorem writeList_lt (vs : List Value) (st : Nat → Value) (i j : Nat)
    (h : j < i) : writeList st i vs j = st j := by
  induction vs generalizing st i with
  | nil => rfl
  | cons v vs ih =>
    rw [writeList, ih _ _ (by omega), writeSlot_other _ _ _ _ (by omega)]

theorem writeList_ge (vs : List Value) (st : Nat → Value) (i j : Nat)
    (h : i + vs.length ≤ j) : writeList st i vs j = st j := by
  induction vs generalizing st i with
  | nil => rfl
  | cons v vs ih =>
    rw [writeList, ih _ _ (by simp at h ⊢; omega),
      writeSlot_other _ _ _ _ (by simp at h; omega)]

theorem writeList_get (vs : List Value) (st : Nat → Value) (i k : Nat)
    (h : k < vs.length) :
    writeList st i vs (i + k) = vs.getD k makeNil := by
  induction vs generalizing st i k with
  | nil => simp at h
  | cons v vs ih =>
    match k with
    | 0 =>
      rw [Nat.add_zero, writeList, writeList_lt _ _ _ _ (by omega),
        writeSlot_same]
      rfl
    | k + 1 =>
      have : i + (k + 1) = (i + 1) + k := by omega
      rw [writeList, this, ih _ _ _ (by simp at h; omega)]
      rfl

/-- C10: `OP_BOOL` casts the top slot in place: a Num `x` becomes
`Bool (|x| < 1e-7)` — true exactly when `x` is within `NUM_PRECISION` of
zero, so 0.0 casts to true and 1.0 to false — an Int becomes `n ≠ 0`,
Nil becomes false, and Obj/IP/FP values fail the cast with InvalidCast. -/
theorem op_bool_spec (s : VMState) (hsp : 1 ≤ s.sp) :
    (∀ x : ℚ, (s.stack (s.sp - 1)).data = .VNum x →
      op_bool s = .ok { s with
        stack := writeSlot s.stack (s.sp - 1)
          (makeBool (decide (|x| < NUM_PRECISION))) }) ∧
    (∀ n : Int, (s.stack (s.sp - 1)).data = .VInt n →
      op_bool s = .ok { s with
        stack := writeSlot s.stack (s.sp - 1) (makeBool (decide (n ≠ 0))) }) ∧
    ((s.stack (s.sp - 1)).data = .VNil →
      op_bool s = .ok { s with
        stack := writeSlot s.stack (s.sp - 1) (makeBool false) }) ∧
    (∀ h : Nat, (s.stack (s.sp - 1)).data = .VObj h →
      op_bool s = .error .InvalidCast) ∧
    (∀ p : Nat, (s.stack (s.sp - 1)).data = .VIP p →
      op_bool s = .error .InvalidCast) ∧
    (∀ p : Nat, (s.stack (s.sp - 1)).data = .VFP p →
      op_bool s = .error .InvalidCast) := by
  have hpeek : peekIdx s 0 = .ok (s.sp - 1) := by
    simp [peekIdx]; omega
  refine ⟨?_, ?_, ?_, ?_, ?_, ?_⟩
  · intro x hx
    simp only [op_bool, bind, Except.bind, hpeek, hx]
    by_cases h0 : 0 < x
    · rw [if_pos h0]
      have : |x| = x := abs_of_pos h0
      simp [this]
    · rw [if_neg h0]
      have : |x| = -x := by
        rcases lt_or_eq_of_le (not_lt.mp h0) with h | h
        · exact abs_of_neg h
        · simp [← h]
      simp [this]
  · intro n hn
    simp only [op_bool, bind, Except.bind, hpeek, hn]
  · intro hn
    simp only [op_bool, bind, Except.bind, hpeek, hn]
  · intro h hx
    simp only [op_bool, bind, Except.bind, hpeek, hx]
  · intro p hx
    simp only [op_bool, bind, Except.bind, hpeek, hx]
  · intro p hx
    simp only [op_bool, bind, Except.bind, hpeek, hx]

/-- Witness for C10: on a stack whose top is `Num 0.0`, `OP_BOOL`
produces `Bool true`. -/
theorem op_bool_spec_witness :
    op_bool c10s =
      .ok { c10s with stack := writeSlot c10s.stack 0 (makeBool true) } := by
  have h := (op_bool_spec c10s (by decide)).1 0 rfl
  have hd : decide (|(0 : ℚ)| < NUM_PRECISION) = true :=
    decide_eq_true (by norm_num [NUM_PRECISION])
  rw [hd] at h
  exact h

/-- C8: for an in-range local index `i`, `OP_SET_LOCAL i` pops the top
value and writes it into slot `fp[i]`, preserving the destination slot's
existing upvalue-reference chain (the stored value adopts the slot's
`references`), and leaves every other stack slot unchanged. -/
theorem op_setLocal_spec (s : VMState) (i : Nat)
    (hip : s.ip < s.endIdx) (hop : byteAt s.mem s.ip = i)
    (hsp : 1 ≤ s.sp) (hrange : i < (s.sp - 1) - s.fp) :
    ∃ s2, op_setLocal s = .ok s2 ∧
      s2.sp = s.sp - 1 ∧ s2.fp = s.fp ∧ s2.ip = s.ip + 1 ∧
      s2.stack (s.fp + i) =
        ⟨(s.stack (s.sp - 1)).data, (s.stack (s.fp + i)).references⟩ ∧
      (∀ j, j ≠ s.fp + i → s2.stack j = s.stack j) ∧
      s2.heap = s.heap := by
  refine ⟨{ s with
              ip := s.ip + 1
              sp := s.sp - 1
              stack := writeSlot s.stack (s.fp + i)
                ⟨(s.stack (s.sp - 1)).data, (s.stack (s.fp + i)).references⟩ },
    ?_, rfl, rfl, rfl, writeSlot_same _ _ _,
    fun j hj => writeSlot_other _ _ _ _ hj, rfl⟩
  simp only [op_setLocal, bind, Except.bind, readU8, pop,
    if_neg (Nat.not_le.mpr hip), hop]
  rw [if_neg (by omega : ¬(s.sp = 0))]
  simp only []
  rw [if_neg (by omega : ¬(s.sp - 1 - s.fp ≤ i))]

/-- Witness for C8: setting local 0 on a concrete two-value stack stores
the popped payload while keeping the slot's reference chain `[5]`. -/
theorem op_setLocal_spec_witness :
    slotOf (op_setLocal c8s) 0 = some ⟨.VInt 9, [5]⟩ := by
  obtain ⟨s2, heq, -, -, -, hslot, -, -⟩ :=
    op_setLocal_spec c8s 0 (by decide) rfl (by decide) (by decide)
  have hproj : slotOf (op_setLocal c8s) 0 = some (s2.stack 0) := by
    rw [heq]
    rfl
  have h0 : c8s.fp + 0 = 0 := rfl
  rw [h0] at hslot
  rw [hproj, hslot]
  rfl

/-- C9 (amended): `OP_IS_VAL_TYPE t` peeks the top value, leaves it on
the stack, and pushes `Bool (value-tag = t)`; `OP_IS_OBJ_TYPE t` does
the same for the object tag, but only when the top value is an Obj with
a live handle — for any other value the C source dereferences
`value->as.obj` blindly, which is undefined behaviour (see the
counterexample `op_isObjType_nonObj`), so the claim's well-definedness
for non-Obj values does not hold. -/
theorem typeTest_spec (s : VMState) (t : Nat)
    (hip : s.ip < s.endIdx) (hop : byteAt s.mem s.ip = t)
    (hsp : 1 ≤ s.sp) (hmax : s.sp ≠ STACK_MAX) :
    (∃ s2, op_isValType s = .ok s2 ∧ s2.sp = s.sp + 1 ∧
      s2.stack s.sp = makeBool (valTypeTag (s.stack (s.sp - 1)).data = t) ∧
      (∀ j, j < s.sp → s2.stack j = s.stack j)) ∧
    (∀ h o, (s.stack (s.sp - 1)).data = .VObj h → s.heap.get? h = some o →
      ∃ s3, op_isObjType s = .ok s3 ∧ s3.sp = s.sp + 1 ∧
        s3.stack s.sp = makeBool (objTypeTag o = t) ∧
        (∀ j, j < s.sp → s3.stack j = s.stack j)) := by
  constructor
  · refine ⟨{ s with
                ip := s.ip + 1
                sp := s.sp + 1
                stack := writeSlot s.stack s.sp
                  (makeBool (valTypeTag (s.stack (s.sp - 1)).data = t)) },
      ?_, rfl, writeSlot_same _ _ _,
      fun j hj => writeSlot_other _ _ _ _ (by omega)⟩
    simp only [op_isValType, bind, Except.bind, readU8, peekIdx, push,
      if_neg (Nat.not_le.mpr hip), hop]
    rw [if_neg (by omega : ¬(s.sp ≤ 0))]
    simp [if_neg hmax]
  · intro h o hobj ho
    have ho2 : s.heap[h]? = some o := by
      rw [← List.get?_eq_getElem?]
      exact ho
    refine ⟨{ s with
                ip := s.ip + 1
                sp := s.sp + 1
                stack := writeSlot s.stack s.sp
                  (makeBool (objTypeTag o = t)) },
      ?_, rfl, writeSlot_same _ _ _,
      fun j hj => writeSlot_other _ _ _ _ (by omega)⟩
    simp only [op_isObjType, bind, Except.bind, readU8, peekIdx, push,
      if_neg (Nat.not_le.mpr hip), hop]
    rw [if_neg (by omega : ¬(s.sp ≤ 0))]
    simp [Nat.sub_zero, hobj, ho2, if_neg hmax]

/-- Witness for C9: on a concrete stack topped by a String object,
`OP_IS_VAL_TYPE 0` pushes false (its value tag is OBJ = 2) and
`OP_IS_OBJ_TYPE 0` pushes true (its object tag is STRING = 0). -/
theorem typeTest_spec_witness :
    slotOf (op_isValType c9s) 1 = some (makeBool false) ∧
    slotOf (op_isObjType c9s) 1 = some (makeBool true) := by
  obtain ⟨⟨s2, heq2, -, hslot2, -⟩, hobjpart⟩ :=
    typeTest_spec c9s 0 (by decide) rfl (by decide) (by decide)
  obtain ⟨s3, heq3, -, hslot3, -⟩ := hobjpart 0 (.HString [104, 105]) rfl rfl
  constructor
  · rw [show slotOf (op_isValType c9s) 1 = some (s2.stack 1) from by rw [heq2]; rfl,
      show s2.stack 1 = s2.stack c9s.sp from rfl, hslot2]
    rfl
  · rw [show slotOf (op_isObjType c9s) 1 = some (s3.stack 1) from by rw [heq3]; rfl,
      show s3.stack 1 = s3.stack c9s.sp from rfl, hslot3]
    rfl

/-- Counterexample for C9: `OP_IS_OBJ_TYPE` on a stack topped by the
non-Obj value `Int 5` misreads the payload as an object pointer — the
modelled execution is the undefined-behaviour outcome, not the boolean
`(object-tag of v = t)` the claim promises. -/
theorem op_isObjType_nonObj :
    op_isObjType c9bad = .error .UndefinedBehavior := rfl

theorem rangeMap_getD (n j : Nat) (f : Nat → Value) (d : Value)
    (h : j < n) : (((List.range n).map f).getD j d) = f j := by
  simp [List.getD, List.getElem?_map, List.getElem?_range h]

/-- C1: `OP_CALL n` on a stack `… (m values) …, a₀..aₙ₋₁, IP t` pops the
target (failing with NonFunctionCall when it is not an IP value), pops
the `n` arguments, pushes `IP(return ip)` then `FP(caller fp)`, sets
`fp := sp`, jumps to `t`, and pushes the arguments back, so the callee's
slots `fp[0..n)` hold the arguments in their original push order and
the `m` slots below are untouched.  (The bounds `m ≤ 510` and
`m ≤ 508 + n` are exactly the source's own overflow checks.) -/
theorem op_call_spec (s : VMState) (n : Nat)
    (hip : s.ip < s.endIdx) (hop : byteAt s.mem s.ip = n) :
    (∀ m t, s.sp = m + n + 1 → (s.stack (m + n)).data = .VIP t →
      m ≤ 510 → m ≤ 508 + n →
      ∃ s2, op_call s = .ok s2 ∧
        s2.ip = t ∧ s2.fp = m + 2 ∧ s2.sp = m + n + 2 ∧
        s2.stack m = makeIP (s.ip + 1) ∧
        s2.stack (m + 1) = makeFP s.fp ∧
        (∀ j, j < n → s2.stack (s2.fp + j) = s.stack (m + j)) ∧
        (∀ j, j < m → s2.stack j = s.stack j)) ∧
    (1 ≤ s.sp → (∀ t, (s.stack (s.sp - 1)).data ≠ .VIP t) →
      op_call s = .error .NonFunctionCall) := by
  constructor
  · intro m t hsp htop h510 h508
    refine ⟨{ s with
                ip := t
                fp := m + 2
                sp := m + 2 + n
                stack := writeList
                  (writeSlot (writeSlot s.stack m (makeIP (s.ip + 1)))
                    (m + 1) (makeFP s.fp))
                  (m + 2)
                  ((List.range n).map (fun j => s.stack (m + j))) },
      ?_, rfl, rfl, by simp only []; omega, ?_, ?_, ?_, ?_⟩
    · simp only [op_call, bind, Except.bind, readU8, pop, popn, push, pushn,
        hop, hsp]
      rw [if_neg (Nat.not_le.mpr hip)]
      simp only []
      rw [if_neg (by omega : ¬(m + n + 1 = 0)),
        show m + n + 1 - 1 = m + n from rfl]
      simp only []
      rw [htop]
      simp only []
      rw [if_neg (by omega : ¬(m + n < n)),
        show m + n - n = m from by omega]
      simp only []
      rw [if_neg (by simp only [STACK_MAX]; omega : ¬(m = STACK_MAX))]
      simp only []
      rw [if_neg (by simp only [STACK_MAX]; omega : ¬(m + 1 = STACK_MAX))]
      simp only []
      simp only [List.length_map, List.length_range]
      rw [if_neg (by simp only [STACK_MAX]; push_cast; omega)]
    · show writeList (writeSlot (writeSlot s.stack m (makeIP (s.ip + 1)))
        (m + 1) (makeFP s.fp)) (m + 2)
        ((List.range n).map (fun j => s.stack (m + j))) m = makeIP (s.ip + 1)
      rw [writeList_lt _ _ _ _ (by omega),
        writeSlot_other _ _ _ _ (by omega), writeSlot_same]
    · show writeList (writeSlot (writeSlot s.stack m (makeIP (s.ip + 1)))
        (m + 1) (makeFP s.fp)) (m + 2)
        ((List.range n).map (fun j => s.stack (m + j))) (m + 1) = makeFP s.fp
      rw [writeList_lt _ _ _ _ (by omega), writeSlot_same]
    · intro j hj
      show writeList (writeSlot (writeSlot s.stack m (makeIP (s.ip + 1)))
        (m + 1) (makeFP s.fp)) (m + 2)
        ((List.range n).map (fun j => s.stack (m + j))) (m + 2 + j)
        = s.stack (m + j)
      rw [writeList_get _ _ _ _ (by simpa using hj), rangeMap_getD _ _ _ _ hj]
    · intro j hj
      show writeList (writeSlot (writeSlot s.stack m (makeIP (s.ip + 1)))
        (m + 1) (makeFP s.fp)) (m + 2)
        ((List.range n).map (fun j => s.stack (m + j))) j = s.stack j
      rw [writeList_lt _ _ _ _ (by omega),
        writeSlot_other _ _ _ _ (by omega),
        writeSlot_other _ _ _ _ (by omega)]
  · intro hsp hnot
    simp only [op_call, bind, Except.bind, readU8, pop,
      if_neg (Nat.not_le.mpr hip), hop]
    rw [if_neg (by omega : ¬(s.sp = 0))]
    rcases hv : (s.stack (s.sp - 1)).data with b | _ | h | z | x | p | p
    · simp [hv]
    · simp [hv]
    · simp [hv]
    · simp [hv]
    · simp [hv]
    · exact absurd hv (hnot p)
    · simp [hv]

/-- Witness for C1: a concrete call with one argument lands `fp = 3`,
`ip = 7`, return IP and caller FP below the frame, and the argument at
`fp[0]`. -/
theorem op_call_spec_witness :
    ipOf (op_call c1s) = some 7 ∧ spOf (op_call c1s) = some 4 ∧
    slotOf (op_call c1s) 1 = some (makeIP 1) ∧
    slotOf (op_call c1s) 2 = some (makeFP 0) ∧
    slotOf (op_call c1s) 3 = some ⟨.VInt 42, []⟩ := by
  obtain ⟨s2, heq, hipv, hfp, hsp2, hm, hm1, hargs, -⟩ :=
    (op_call_spec c1s 1 (by decide) rfl).1 1 7 rfl rfl (by decide) (by decide)
  have harg := hargs 0 (by decide)
  rw [hfp] at harg
  refine ⟨?_, ?_, ?_, ?_, ?_⟩
  · rw [show ipOf (op_call c1s) = some s2.ip from by rw [heq]; rfl, hipv]
  · rw [show spOf (op_call c1s) = some s2.sp from by rw [heq]; rfl, hsp2]
  · rw [show slotOf (op_call c1s) 1 = some (s2.stack 1) from by rw [heq]; rfl,
      hm]
    rfl
  · rw [show slotOf (op_call c1s) 2 = some (s2.stack 2) from by rw [heq]; rfl,
      hm1]
    rfl
  · rw [show slotOf (op_call c1s) 3 = some (s2.stack (3 + 0)) from by
      rw [heq]; rfl, harg]
    rfl

theorem closeUpvalue_get_ne (stack : Nat → Value) (heap : List HeapObj)
    (r h : Nat) (hne : h ≠ r) :
    (closeUpvalue stack heap r).get? h = heap.get? h := by
  rw [closeUpvalue]
  rcases hr : heap.get? r with - | o
  · rfl
  · match o with
    | .HString d => rfl
    | .HStruct f => rfl
    | .HUpvalue (.openSlot i) =>
      exact List.get?_set_ne _ _ (fun he => hne he.symm)
    | .HUpvalue (.closed w) => rfl

theorem closeUpvalue_self_closed (stack : Nat → Value) (heap : List HeapObj)
    (h : Nat) (v : Value)
    (hc : heap.get? h = some (.HUpvalue (.closed v))) :
    (closeUpvalue stack heap h).get? h = some (.HUpvalue (.closed v)) := by
  rw [closeUpvalue, hc]
  exact hc

theorem closeUpvalue_self_open (stack : Nat → Value) (heap : List HeapObj)
    (h k : Nat)
    (ho : heap.get? h = some (.HUpvalue (.openSlot k))) :
    (closeUpvalue stack heap h).get? h =
      some (.HUpvalue (.closed (stack k))) := by
  have hlen : h < heap.length := by
    by_contra hge
    rw [List.get?_eq_none.mpr (by omega)] at ho
    exact Option.noConfusion ho
  rw [closeUpvalue, ho]
  exact List.get?_set_eq_of_lt _ hlen

theorem closeAll_preserves (stack : Nat → Value) (heap : List HeapObj)
    (refs : List Nat) (h : Nat) (v : Value)
    (hc : heap.get? h = some (.HUpvalue (.closed v))) :
    (closeAll stack heap refs).get? h = some (.HUpvalue (.closed v)) := by
  induction refs generalizing heap with
  | nil => exact hc
  | cons r rest ih =>
    rw [closeAll, List.foldl_cons]
    refine ih _ ?_
    by_cases hrh : h = r
    · subst hrh
      exact closeUpvalue_self_closed _ _ _ _ hc
    · rw [closeUpvalue_get_ne _ _ _ _ hrh]
      exact hc

theorem closeAll_closes (stack : Nat → Value) (heap : List HeapObj)
    (refs : List Nat) (k : Nat)
    (hopen : ∀ h ∈ refs,
      heap.get? h = some (.HUpvalue (.openSlot k)) ∨
      heap.get? h = some (.HUpvalue (.closed (stack k)))) :
    ∀ h ∈ refs, (closeAll stack heap refs).get? h =
      some (.HUpvalue (.closed (stack k))) := by
  induction refs generalizing heap with
  | nil => intro h hm; exact absurd hm (List.not_mem_nil h)
  | cons r rest ih =>
    intro h hm
    have h1 : (closeUpvalue stack heap r).get? r =
        some (.HUpvalue (.closed (stack k))) := by
      rcases hopen r (List.mem_cons_self r rest) with ho | hc
      · exact closeUpvalue_self_open _ _ _ _ ho
      · exact closeUpvalue_self_closed _ _ _ _ hc
    have hrest : ∀ h' ∈ rest,
        (closeUpvalue stack heap r).get? h' =
          some (.HUpvalue (.openSlot k)) ∨
        (closeUpvalue stack heap r).get? h' =
          some (.HUpvalue (.closed (stack k))) := by
      intro h' hm'
      by_cases hr : h' = r
      · subst hr
        exact Or.inr h1
      · rw [closeUpvalue_get_ne _ _ _ _ hr]
        exact hopen h' (List.mem_cons_of_mem r hm')
    rw [closeAll, List.foldl_cons]
    rcases List.mem_cons.mp hm with he | hm'
    · subst he
      exact closeAll_preserves _ _ _ _ _ h1
    · exact ih _ hrest h hm'

/-- C2: when `OP_POP` pops a slot whose reference chain consists of open
upvalues pointing at that slot, every upvalue in the chain is closed at
that moment with the slot's value copied into the upvalue's own storage;
and a subsequent `OP_DEREF` of any such closed upvalue yields exactly
that value. -/
theorem op_pop_closes_spec (s : VMState) (v : Value)
    (hsp : 1 ≤ s.sp) (hv : s.stack (s.sp - 1) = v)
    (hopen : ∀ h ∈ v.references,
      s.heap.get? h = some (.HUpvalue (.openSlot (s.sp - 1)))) :
    (∃ s2, op_pop s = .ok s2 ∧ s2.sp = s.sp - 1 ∧ s2.stack = s.stack ∧
      ∀ h ∈ v.references,
        s2.heap.get? h = some (.HUpvalue (.closed v))) ∧
    (∀ (t : VMState) (h : Nat) (w : Value), 1 ≤ t.sp →
      (t.stack (t.sp - 1)).data = .VObj h →
      t.heap.get? h = some (.HUpvalue (.closed w)) →
      ∃ t2, op_deref t = .ok t2 ∧ t2.stack (t.sp - 1) = w ∧ t2.sp = t.sp) := by
  constructor
  · refine ⟨{ s with
                sp := s.sp - 1
                heap := closeAll s.stack s.heap
                  (s.stack (s.sp - 1)).references },
      ?_, rfl, rfl, ?_⟩
    · simp only [op_pop, bind, Except.bind, pop]
      rw [if_neg (by omega : ¬(s.sp = 0))]
    · intro h hm
      show (closeAll s.stack s.heap (s.stack (s.sp - 1)).references).get? h =
        some (.HUpvalue (.closed v))
      have hc := closeAll_closes s.stack s.heap v.references (s.sp - 1)
        (fun h2 hm2 => Or.inl (hopen h2 hm2)) h hm
      rw [hv] at hc ⊢
      exact hc
  · intro t h w htsp htop tho
    refine ⟨{ t with
                stack := writeSlot t.stack (t.sp - 1)
                  (derefUpvalue t.stack (.closed w)) },
      ?_, ?_, rfl⟩
    · have hpeek : peekIdx t 0 = .ok (t.sp - 1) := by
        simp [peekIdx]
        omega
      simp only [op_deref, bind, Except.bind, hpeek, htop, tho]
    · show writeSlot t.stack (t.sp - 1)
        (derefUpvalue t.stack (.closed w)) (t.sp - 1) = w
      rw [writeSlot_same]
      rfl

/-- Witness for C2: popping a slot holding `Int 7` with one open upvalue
leaves the upvalue closed over `Int 7`, and dereferencing it afterwards
yields `Int 7`. -/
theorem op_pop_closes_spec_witness :
    heapAtOf (op_pop c2s) 0 = some (.HUpvalue (.closed ⟨.VInt 7, [0]⟩)) ∧
    slotOf (op_deref c2t) 0 = some ⟨.VInt 7, [0]⟩ := by
  obtain ⟨⟨s2, heq, -, -, hcl⟩, hderef⟩ :=
    op_pop_closes_spec c2s ⟨.VInt 7, [0]⟩ (by decide) rfl (by decide)
  obtain ⟨t2, heq2, hslot, -⟩ :=
    hderef c2t 0 ⟨.VInt 7, [0]⟩ (by decide) rfl rfl
  constructor
  · rw [show heapAtOf (op_pop c2s) 0 = s2.heap.get? 0 from by rw [heq]; rfl]
    exact hcl 0 (by decide)
  · rw [show slotOf (op_deref c2t) 0 = some (t2.stack 0) from by
      rw [heq2]; rfl]
    have h0 : c2t.sp - 1 = 0 := rfl
    rw [h0] at hslot
    rw [hslot]

theorem findString_some (heap : List HeapObj) (bytes : List Nat) (h : Nat)
    (hf : findString heap bytes = some h) :
    heap.get? h = some (.HString bytes) := by
  induction heap generalizing h with
  | nil => exact Option.noConfusion hf
  | cons o rest ih =>
    rw [findString] at hf
    by_cases ho : o = .HString bytes
    · rw [if_pos ho] at hf
      cases hf
      rw [show (o :: rest).get? 0 = some o from rfl, ho]
    · rw [if_neg ho] at hf
      rcases hr : findString rest bytes with - | h0
      · rw [hr] at hf
        exact Option.noConfusion hf
      · rw [hr] at hf
        rw [show Option.map (fun x => x + 1) (some h0) = some (h0 + 1)
          from rfl] at hf
        cases hf
        rw [show (o :: rest).get? (h0 + 1) = rest.get? h0 from rfl]
        exact ih h0 hr

theorem findString_append_self (heap : List HeapObj) (bytes : List Nat)
    (hnone : findString heap bytes = none) :
    findString (heap ++ [.HString bytes]) bytes = some heap.length := by
  induction heap with
  | nil => simp [findString]
  | cons o rest ih =>
    rw [findString] at hnone
    by_cases ho : o = .HString bytes
    · rw [if_pos ho] at hnone
      exact Option.noConfusion hnone
    · rw [if_neg ho] at hnone
      have hrest : findString rest bytes = none := by
        rcases hf : findString rest bytes with - | h0
        · rfl
        · rw [hf] at hnone
          simp at hnone
      rw [List.cons_append, findString, if_neg ho, ih hrest]
      rfl

/-- `makeString` interning: creating a string twice yields the same
handle, and the handle resolves to the byte contents. -/
theorem makeString_intern (heap : List HeapObj) (bytes : List Nat) :
    (makeString ((makeString heap bytes).1) bytes).2 =
      (makeString heap bytes).2 ∧
    ∃ h, ((makeString heap bytes).2).data = .VObj h ∧
      ((makeString heap bytes).1).get? h = some (.HString bytes) := by
  rcases hf : findString heap bytes with - | h0
  · have happ := findString_append_self heap bytes hf
    have hm : makeString heap bytes =
        (heap ++ [.HString bytes], ⟨.VObj heap.length, []⟩) := by
      rw [makeString, hf]
    have hm2 : makeString (heap ++ [.HString bytes]) bytes =
        (heap ++ [.HString bytes], ⟨.VObj heap.length, []⟩) := by
      rw [makeString, happ]
    constructor
    · rw [hm]
      simp only []
      rw [hm2]
    · refine ⟨heap.length, ?_, ?_⟩
      · rw [hm]
      · rw [hm]
        exact List.get?_concat_length _ _
  · have hm : makeString heap bytes = (heap, ⟨.VObj h0, []⟩) := by
      rw [makeString, hf]
    constructor
    · rw [hm]
      simp only []
      rw [makeString, hf]
    · refine ⟨h0, ?_, ?_⟩
      · rw [hm]
      · rw [hm]
        exact findString_some heap bytes h0 hf

/-- C6: `OP_EQUAL` pops `b`, peeks `a` and replaces it with
`Bool (valuesEqual a b)`, where: values of different tags are unequal;
Bool/Nil/Int compare by value; Num values compare equal exactly when
their absolute difference is below `NUM_PRECISION` (1e-7); Obj compares
by handle identity, which for Strings under the interning invariant is
exactly byte equality; and interning makes a second `makeString` of the
same bytes return the same object. -/
theorem op_equal_spec (s : VMState) (a b : Value)
    (hsp : 2 ≤ s.sp) (ha : s.stack (s.sp - 2) = a)
    (hb : s.stack (s.sp - 1) = b) :
    (∃ s2, op_equal s = .ok s2 ∧ s2.sp = s.sp - 1 ∧
      s2.stack (s.sp - 2) = makeBool (valuesEqual a b) ∧
      ∀ j, j < s.sp - 2 → s2.stack j = s.stack j) ∧
    (valTypeTag a.data ≠ valTypeTag b.data → valuesEqual a b = false) ∧
    (∀ (x y : Bool) (r1 r2 : List Nat),
      valuesEqual ⟨.VBool x, r1⟩ ⟨.VBool y, r2⟩ = decide (x = y)) ∧
    (∀ r1 r2 : List Nat, valuesEqual ⟨.VNil, r1⟩ ⟨.VNil, r2⟩ = true) ∧
    (∀ (x y : Int) (r1 r2 : List Nat),
      valuesEqual ⟨.VInt x, r1⟩ ⟨.VInt y, r2⟩ = decide (x = y)) ∧
    (∀ (x y : ℚ) (r1 r2 : List Nat),
      valuesEqual ⟨.VNum x, r1⟩ ⟨.VNum y, r2⟩ =
        decide (|x - y| < NUM_PRECISION)) ∧
    (∀ (h1 h2 : Nat) (r1 r2 : List Nat),
      valuesEqual ⟨.VObj h1, r1⟩ ⟨.VObj h2, r2⟩ = decide (h1 = h2)) ∧
    (∀ (h1 h2 : Nat) (r1 r2 b1 b2 : List Nat),
      StringsInterned s.heap →
      s.heap.get? h1 = some (.HString b1) →
      s.heap.get? h2 = some (.HString b2) →
      (valuesEqual ⟨.VObj h1, r1⟩ ⟨.VObj h2, r2⟩ = true ↔ b1 = b2)) ∧
    (∀ (heap : List HeapObj) (bytes : List Nat),
      (makeString ((makeString heap bytes).1) bytes).2 =
        (makeString heap bytes).2) := by
  refine ⟨?_, ?_, fun x y r1 r2 => rfl, fun r1 r2 => rfl,
    fun x y r1 r2 => rfl, fun x y r1 r2 => rfl, fun h1 h2 r1 r2 => rfl, ?_,
    fun heap bytes => (makeString_intern heap bytes).1⟩
  · refine ⟨{ s with
                sp := s.sp - 1
                stack := writeSlot s.stack (s.sp - 2)
                  (makeBool (valuesEqual a b)) },
      ?_, rfl, writeSlot_same _ _ _,
      fun j hj => writeSlot_other _ _ _ _ (by omega)⟩
    simp only [op_equal, binaryOp, bind, Except.bind, pop]
    rw [if_neg (by omega : ¬(s.sp = 0))]
    simp only [peekIdx]
    rw [if_neg (by omega : ¬(s.sp - 1 ≤ 0))]
    simp only []
    rw [show s.sp - 1 - 0 - 1 = s.sp - 2 from rfl, ha, hb]
  · intro hne
    rcases a with ⟨ad, ar⟩
    rcases b with ⟨bd, br⟩
    cases ad <;> cases bd <;> first | rfl | exact absurd rfl hne
  · intro h1 h2 r1 r2 b1 b2 hint hb1 hb2
    rw [show valuesEqual ⟨.VObj h1, r1⟩ ⟨.VObj h2, r2⟩ = decide (h1 = h2)
      from rfl]
    constructor
    · intro hd
      have he : h1 = h2 := of_decide_eq_true hd
      rw [he, hb2] at hb1
      cases hb1
      rfl
    · intro hbb
      exact decide_eq_true (hint h1 h2 b1 b2 hb1 hb2 hbb)

/-- Witness for C6: comparing two stack copies of the same interned
string pushes `Bool true`, and string equality coincides with byte
equality on a concrete interned heap. -/
theorem op_equal_spec_witness :
    slotOf (op_equal c6s) 0 = some (makeBool true) ∧
    (valuesEqual ⟨.VObj 0, []⟩ ⟨.VObj 0, []⟩ = true ↔
      ([104, 105] : List Nat) = [104, 105]) := by
  have hint : StringsInterned c6s.heap := by
    intro i j bi bj hi hj hbb
    cases i with
    | zero =>
      cases j with
      | zero => rfl
      | succ j2 => exact Option.noConfusion hj
    | succ i2 => exact Option.noConfusion hi
  obtain ⟨⟨s2, heq, -, hslot, -⟩, -, -, -, -, -, -, hstr, -⟩ :=
    op_equal_spec c6s ⟨.VObj 0, []⟩ ⟨.VObj 0, []⟩ (by decide) rfl rfl
  constructor
  · rw [show slotOf (op_equal c6s) 0 = some (s2.stack 0) from by
      rw [heq]; rfl]
    have h0 : c6s.sp - 2 = 0 := rfl
    rw [h0] at hslot
    rw [hslot]
    rfl
  · exact hstr 0 0 [] [] [104, 105] [104, 105] hint rfl rfl

/-- C7 (amended): `OP_STRUCT n` immediately followed by `OP_DESTRUCT 0`
restores the stack to exactly the sequence of pushed field values in
their original order, provided `n ≥ 1` or the stack held at most 510
values; for `n = 0` on a stack of exactly 511 values the `push_n`
off-by-one bound spuriously fails with StackOverflow instead (see the
counterexample), so the claim's unrestricted form is false. -/
theorem struct_destruct_spec (s : VMState) (n : Nat)
    (hip : s.ip + 1 < s.endIdx) (hop1 : byteAt s.mem s.ip = n)
    (hop2 : byteAt s.mem (s.ip + 1) = 0)
    (hn : n ≤ s.sp) (hcap : s.sp ≤ 512)
    (hroom : 1 ≤ n ∨ s.sp ≤ 510) :
    ∃ s2, (op_struct s).bind op_destruct = .ok s2 ∧
      s2.sp = s.sp ∧ (∀ j, j < s.sp → s2.stack j = s.stack j) := by
  have hne : ¬(s.sp - n = STACK_MAX) := by
    simp only [STACK_MAX]
    rcases hroom with h1 | h1 <;> omega
  have hpushn : ¬((STACK_MAX : Int) + (n : Int) - 1 ≤ ((s.sp - n : Nat) : Int)) := by
    simp only [STACK_MAX]
    rcases hroom with h1 | h1 <;> (push_cast; omega)
  have hgetset : ((s.heap ++ [HeapObj.HStruct (List.replicate n makeNil)]).set
      s.heap.length
      (HeapObj.HStruct ((List.range n).map (fun j => s.stack (s.sp - n + j))))).get?
      s.heap.length =
      some (HeapObj.HStruct ((List.range n).map (fun j => s.stack (s.sp - n + j)))) := by
    refine List.get?_set_eq_of_lt _ ?_
    simp
  refine ⟨{ s with
              ip := s.ip + 1 + 1
              sp := s.sp - n + n
              stack := writeList
                (writeSlot s.stack (s.sp - n) ⟨.VObj s.heap.length, []⟩)
                (s.sp - n)
                ((List.range n).map (fun j => s.stack (s.sp - n + j)))
              heap := (s.heap ++ [HeapObj.HStruct (List.replicate n makeNil)]).set
                s.heap.length
                (HeapObj.HStruct ((List.range n).map (fun j => s.stack (s.sp - n + j)))) },
    ?_, by simp only []; omega, ?_⟩
  · simp only [op_struct, op_destruct, makeStruct, bind, Except.bind, readU8,
      pop, popn, push, pushn, hop1]
    rw [if_neg (by omega : ¬(s.endIdx ≤ s.ip))]
    simp only []
    rw [if_neg (by omega : ¬(s.sp < n))]
    simp only []
    rw [if_neg hne]
    simp only []
    rw [if_neg (by omega : ¬(s.endIdx ≤ s.ip + 1)), hop2]
    simp only []
    rw [if_neg (by omega : ¬(s.sp - n + 1 = 0)),
      show s.sp - n + 1 - 1 = s.sp - n from rfl, writeSlot_same]
    simp only []
    rw [hgetset]
    simp only [List.length_map, List.length_range]
    rw [if_neg (by omega : ¬(n < 0)), List.drop_zero]
    simp only [List.length_map, List.length_range]
    rw [if_neg hpushn]
  · intro j hj
    show writeList (writeSlot s.stack (s.sp - n) ⟨.VObj s.heap.length, []⟩)
      (s.sp - n) ((List.range n).map (fun j => s.stack (s.sp - n + j))) j =
      s.stack j
    by_cases hlow : j < s.sp - n
    · rw [writeList_lt _ _ _ _ hlow, writeSlot_other _ _ _ _ (by omega)]
    · have hk : j = (s.sp - n) + (j - (s.sp - n)) := by omega
      rw [hk, writeList_get _ _ _ _ (by simp; omega),
        rangeMap_getD _ _ _ _ (by omega)]

/-- Counterexample for C7: on a stack of 511 values, `OP_STRUCT 0` then
`OP_DESTRUCT 0` does not restore the stack — it aborts with
StackOverflow (the `PUSHN` check `sp ≥ 512 + n - 1` rejects `n = 0` at
`sp = 511`), leaving the struct popped and nothing repushed. -/
theorem struct_destruct_not_restoring :
    (op_struct c7bad).bind op_destruct = .error .StackOverflow := rfl

/-- Witness for C7: pushing `Int 1, Int 2`, making a 2-field struct and
destructing it restores the original two slots. -/
theorem struct_destruct_spec_witness :
    spOf ((op_struct c7s).bind op_destruct) = some 2 ∧
    slotOf ((op_struct c7s).bind op_destruct) 0 = some ⟨.VInt 1, []⟩ ∧
    slotOf ((op_struct c7s).bind op_destruct) 1 = some ⟨.VInt 2, []⟩ := by
  obtain ⟨s2, heq, hsp2, hrest⟩ :=
    struct_destruct_spec c7s 2 (by decide) rfl rfl (by decide) (by decide)
      (Or.inl (by decide))
  have h0 := hrest 0 (by decide)
  have h1 := hrest 1 (by decide)
  refine ⟨?_, ?_, ?_⟩
  · rw [show spOf ((op_struct c7s).bind op_destruct) = some s2.sp from by
      rw [heq]; rfl, hsp2]
    rfl
  · rw [show slotOf ((op_struct c7s).bind op_destruct) 0 = some (s2.stack 0)
      from by rw [heq]; rfl, h0]
    rfl
  · rw [show slotOf ((op_struct c7s).bind op_destruct) 1 = some (s2.stack 1)
      from by rw [heq]; rfl, h1]
    rfl

/-- C3 (refuting evaluation): executing the module `00 24 0A`
(empty constant pool, then `OP_FUNCTION 10`) runs to completion with the
final `ip = 13` strictly beyond `end = 3` — `op_function` advances `ip`
by its offset operand with no bounds check, so the claimed invariant
`start ≤ ip ≤ end` does not survive every handler. -/
theorem op_function_ip_escapes :
    ipEndOf (executeCode 16 memC3 3) = some (13, 3) := rfl

/-- C4 (refuting evaluation): `OP_DESTRUCT 0` on a full 512-slot stack
whose top is a 2-field struct succeeds with `sp = 513`: the `PUSHN`
bound `sp ≥ STACK_MAX + n - 1` fails to reject the 2-slot push from
`sp = 511`, so `push_n` does not bounds-check the entire delta and the C
program writes past the stack array instead of failing with
StackOverflow. -/
theorem pushn_overflows_past_stack :
    spOf (op_destruct c4s) = some 513 := rfl

/-- C5 (refuting evaluation): loading the 2-byte module `01 00` (one
constant, tag CONST_INT, no payload) does not fail with TruncatedHeader:
the size_t check `index >= length - 4` wraps around for `length = 2`,
the loader reads its 4 payload bytes beyond the buffer (the loaded
constant changes with the junk found there), and execution completes
with `ip = 6` past `end = 2`. -/
theorem loadConstants_reads_past_buffer :
    ipEndOf (executeCode 16 memC5 2) = some (6, 2) ∧
    constantsOf (executeCode 16 memC5 2) = some [makeInt 0] ∧
    constantsOf (executeCode 16 memC5junk 2) = some [makeInt 117901063] :=
  ⟨rfl, rfl, rfl⟩
